import Mathlib

/-!
Verification of the pgx value-codec layer (`src/pgtype/pguint32.go`) and the
batch pipeline controller (specified in the design document; its behaviour at
the claims' scenarios is pinned by `src/batch_test.go`).

Machine integers are modelled as `Nat` (a Go `uint32` is a `Nat` kept below
`2 ^ 32` by every operation); Go byte slices are `List Nat` (each byte below
256); a nilable byte slice is `Option (List Nat)`; a Go `error` result is
`Option GoError` (`none` = nil error).
-/

namespace PGX

/-- Modelled from the spec: the tri-state value status of the pgtype package
(`Present` = valid data, `Null` = SQL NULL, `Undefined` = never assigned).
The `Status` type itself is declared outside `src/`; the spec's data model
section defines exactly these three states. -/
inductive Status where
  | Undefined
  | Null
  | Present
deriving DecidableEq, Repr

/-- `pguint32` from `src/pgtype/pguint32.go`: the core type used to implement
PostgreSQL types such as CID and XID. `Uint` holds the `uint32` payload. -/
structure pguint32 where
  Uint : Nat
  Status : Status
deriving DecidableEq, Repr

/-- Go `error` values produced by the pguint32 codec, carried structurally:
`cannotConvert shown` is `fmt.Errorf("cannot convert %v to pguint32", value)`
with `shown` the `%v` rendering of the value; `cannotAssign` is
`fmt.Errorf("cannot assign %v into %T", src, dst)`; `invalidLength n` is
`fmt.Errorf("invalid length: %v", len(src))`; `numError bs` stands for the
`*strconv.NumError` returned by `strconv.ParseUint`, carrying the offending
bytes; `errUndefined` is the pgtype package's shared undefined-status error. -/
inductive GoError where
  | errUndefined
  | cannotConvert (shown : String)
  | cannotAssign (src : pguint32) (dstType : String)
  | invalidLength (n : Nat)
  | numError (bs : List Nat)
deriving DecidableEq, Repr

/-- The `%s`-style rendering of each error (`Error()` in Go). Only the
`cannotConvert` rendering is load-bearing: it reproduces the exact format
string of `ConvertFrom`. -/
def errMessage : GoError → String
  | .errUndefined => "cannot encode status undefined"
  | .cannotConvert shown => "cannot convert " ++ shown ++ " to pguint32"
  | .cannotAssign src dstType =>
      "cannot assign &" ++ toString src.Uint ++ " into " ++ dstType
  | .invalidLength n => "invalid length: " ++ toString n
  | .numError _ => "strconv.ParseUint: invalid syntax or value out of range"

/-- A closed model of the Go `interface{}` values a caller may pass to
`ConvertFrom`: the designated native type `uint32` plus representative other
types (wider/narrower integers, strings, booleans). -/
inductive GoValue where
  | guint32 (n : Nat)
  | guint64 (n : Nat)
  | gint32 (n : Int)
  | gint64 (n : Int)
  | gint (n : Int)
  | gstring (s : String)
  | gbool (b : Bool)
deriving DecidableEq, Repr

/-- The `%v` rendering of a `GoValue` (numbers print in decimal, strings print
raw, booleans print `true`/`false`) - what `fmt.Errorf("... %v ...", value)`
interpolates. -/
def goShow : GoValue → String
  | .guint32 n => toString n
  | .guint64 n => toString n
  | .gint32 n => toString n
  | .gint64 n => toString n
  | .gint n => toString n
  | .gstring s => s
  | .gbool b => toString b

/-- The Go type name of a `GoValue` - what `%T` would interpolate. -/
def typeName : GoValue → String
  | .guint32 _ => "uint32"
  | .guint64 _ => "uint64"
  | .gint32 _ => "int32"
  | .gint64 _ => "int64"
  | .gint _ => "int"
  | .gstring _ => "string"
  | .gbool _ => "bool"

/-- `true` iff the dynamic type of the value is `uint32`. -/
def GoValue.isUint32 : GoValue → Bool
  | .guint32 _ => true
  | _ => false

/-- Does the character list `l` start with `sub`? -/
def startsWith : List Char → List Char → Bool
  | [], _ => true
  | _ :: _, [] => false
  | a :: as, b :: bs => a == b && startsWith as bs

/-- Does the character list contain `sub` as a contiguous run? -/
def hasSub (sub : List Char) : List Char → Bool
  | [] => sub.isEmpty
  | c :: rest => startsWith sub (c :: rest) || hasSub sub rest

/-- Does string `s` contain string `sub` as a substring? -/
def strHasSub (s sub : String) : Bool := hasSub sub.data s.data

/-- `ConvertFrom` from `src/pgtype/pguint32.go`: only a native `uint32` is
accepted (no automatic numeric conversion); any other dynamic type returns
`fmt.Errorf("cannot convert %v to pguint32", value)` and leaves `dst`
unchanged (the Go method returns before assigning). Result is
(new value of `*dst`, returned error). -/
def ConvertFrom (dst : pguint32) (src : GoValue) : pguint32 × Option GoError :=
  match src with
  | .guint32 n => (⟨n, Status.Present⟩, none)
  | v => (dst, some (GoError.cannotConvert (goShow v)))

/-- A model of the destinations a caller may pass to `AssignTo`:
`puint32 cur` is a `*uint32` whose pointee currently holds `cur`;
`ppuint32 cur` is a `**uint32` whose inner pointer is nil (`none`) or points
at a value; `other ty cur` stands for a pointer of any type outside the
method's switch (carrying its Go type name and current contents). -/
inductive GoDest where
  | puint32 (cur : Nat)
  | ppuint32 (cur : Option Nat)
  | other (ty : String) (cur : Nat)
deriving DecidableEq, Repr

/-- `AssignTo` from `src/pgtype/pguint32.go`. For `*uint32`: copy when
`Present`, otherwise `fmt.Errorf("cannot assign %v into %T", src, dst)`.
For `**uint32`: fresh pointer to the value when `Present`, otherwise set the
pointer to nil with no error. Any type outside the switch falls through to
`return nil` with the destination untouched. Result is
(new destination contents, returned error). -/
def AssignTo (src : pguint32) (dst : GoDest) : GoDest × Option GoError :=
  match dst with
  | .puint32 cur =>
      match src.Status with
      | .Present => (.puint32 src.Uint, none)
      | _ => (.puint32 cur, some (.cannotAssign src "*uint32"))
  | .ppuint32 _ =>
      match src.Status with
      | .Present => (.ppuint32 (some src.Uint), none)
      | _ => (.ppuint32 none, none)
  | .other ty cur => (.other ty cur, none)

/-- Is byte `b` an ASCII decimal digit (`'0'` = 48 .. `'9'` = 57)? -/
def isDigit (b : Nat) : Bool := 48 ≤ b && b ≤ 57

/-- The digit-accumulation loop of `strconv.ParseUint(s, 10, 32)`: scan the
bytes left to right; a non-digit is a syntax error; an accumulated value that
no longer fits in 32 bits is a range error; both abort immediately, as in Go. -/
def parseLoop (acc : Nat) : List Nat → Option Nat
  | [] => some acc
  | b :: bs =>
      if isDigit b then
        let acc' := acc * 10 + (b - 48)
        if acc' < 2 ^ 32 then parseLoop acc' bs else none
      else none

/-- `strconv.ParseUint(string(src), 10, 32)`: the empty string is a syntax
error; otherwise run the digit loop from 0. -/
def parseUint32 (bs : List Nat) : Option Nat :=
  if bs.isEmpty then none else parseLoop 0 bs

/-- The numeric value denoted by a list of ASCII digit bytes, most significant
first. -/
def digitsVal (bs : List Nat) : Nat := bs.foldl (fun a b => a * 10 + (b - 48)) 0

/-- The bytes written by `strconv.FormatUint(uint64(v), 10)`: the minimal
big-endian decimal digit string of `v` in ASCII (`Nat.digits 10` yields the
digits little-endian, so they are reversed). -/
def decimalBytes (v : Nat) : List Nat :=
  if v = 0 then [48] else ((Nat.digits 10 v).reverse.map (fun d => d + 48))

/-- The 4 bytes written by `pgio.WriteUint32` (`binary.BigEndian.PutUint32`):
big-endian base-256 digits of `v`. -/
def beBytes4 (v : Nat) : List Nat :=
  [v / 16777216 % 256, v / 65536 % 256, v / 256 % 256, v % 256]

/-- `binary.BigEndian.Uint32` on a 4-byte slice. -/
def beUint32 : List Nat → Nat
  | [b0, b1, b2, b3] => ((b0 * 256 + b1) * 256 + b2) * 256 + b3
  | _ => 0

/-- `DecodeText` from `src/pgtype/pguint32.go`: nil input sets `Null`;
otherwise `strconv.ParseUint(string(src), 10, 32)`; on parse error the method
returns before assigning, leaving `*dst` unchanged; on success it stores
`Present` with the parsed value. Result is (new `*dst`, returned error). -/
def DecodeText (dst : pguint32) (src : Option (List Nat)) :
    pguint32 × Option GoError :=
  match src with
  | none => (⟨0, Status.Null⟩, none)
  | some bs =>
      match parseUint32 bs with
      | none => (dst, some (GoError.numError bs))
      | some n => (⟨n, Status.Present⟩, none)

/-- `DecodeBinary` from `src/pgtype/pguint32.go`: nil input sets `Null`; a
non-nil input of length other than 4 returns `invalid length` with `*dst`
unchanged; otherwise stores `Present` of the big-endian 32-bit value. -/
def DecodeBinary (dst : pguint32) (src : Option (List Nat)) :
    pguint32 × Option GoError :=
  match src with
  | none => (⟨0, Status.Null⟩, none)
  | some bs =>
      if bs.length ≠ 4 then (dst, some (GoError.invalidLength bs.length))
      else (⟨beUint32 bs, Status.Present⟩, none)

/-- `EncodeText` from `src/pgtype/pguint32.go`. The Go method writes to an
`io.Writer` and returns `(bool, error)`; here the writer is an accumulating
buffer, so the result is (bytes written, signals-null flag, returned error):
`Null` writes nothing and signals null; `Undefined` writes nothing and
returns `errUndefined`; `Present` writes the decimal rendering. -/
def EncodeText (src : pguint32) : List Nat × Bool × Option GoError :=
  match src.Status with
  | .Null => ([], true, none)
  | .Undefined => ([], false, some GoError.errUndefined)
  | .Present => (decimalBytes src.Uint, false, none)

/-- `EncodeBinary` from `src/pgtype/pguint32.go`: same status handling as
`EncodeText`; `Present` writes the 4 big-endian bytes via `pgio.WriteUint32`. -/
def EncodeBinary (src : pguint32) : List Nat × Bool × Option GoError :=
  match src.Status with
  | .Null => ([], true, none)
  | .Undefined => ([], false, some GoError.errUndefined)
  | .Present => (beBytes4 src.Uint, false, none)

/-!
## Batch pipeline controller

The batch controller itself (`BeginBatch`/`Send`/`ExecResults`/`QueryResults`/
`Close` and the connection liveness flag) is part of this repository but its
implementation file is not under `src/`; only its test `src/batch_test.go` is.
The state machine below is therefore modelled from the spec's sections 4.4
(batch controller), 5 (cancellation) and 7 (error kinds), with one deliberate
deviation taken from the repository's own test: `TestConnBeginBatchQueryError`
asserts `conn should be dead, but was alive` after a batch server error is
surfaced by `Close`, so a surfaced server error marks the connection not
alive, where the spec's prose says liveness remains true. The test, being
repository code, is the authority for that point.
-/

/-- What a queued statement would do if the server executed it: succeed with a
row-affected count, or fail with a server error carrying a status code. -/
inductive StmtSpec where
  | succeeds (rowsAffected : Nat)
  | fails (code : String)
deriving DecidableEq, Repr

/-- The per-statement response actually delivered by the server for one
pipelined command stream. -/
inductive StmtResult where
  | success (rowsAffected : Nat)
  | serverErr (code : String)
  | skipped
deriving DecidableEq, Repr

/-- Modelled from the spec: because the statements are sent as one command
stream, a server error on statement k causes the server to skip every
statement after k until the synchronization marker, returning a skipped
status for each. -/
def pipelineOutcomes : List StmtSpec → List StmtResult
  | [] => []
  | .succeeds n :: rest => .success n :: pipelineOutcomes rest
  | .fails c :: rest => .serverErr c :: rest.map (fun _ => .skipped)

/-- Errors a result accessor or `Close` can return: a server error with its
status code, the cancellation error, the skipped-statement report for
statements after a failed one, or calling an accessor past the queued items. -/
inductive BatchError where
  | server (code : String)
  | canceled
  | skippedStmt
  | noResult
deriving DecidableEq, Repr

/-- Modelled from the spec: the state of a batch after `Send` succeeded,
sharing the connection's liveness flag. `outcomes` is the server's delivered
response stream, `cursor` the index of the next unconsumed result, `canceled`
whether the governing token has been canceled, `firstErr` the first server
error encountered so far (what `Close` later surfaces). -/
structure BatchState where
  outcomes : List StmtResult
  cursor : Nat
  canceled : Bool
  connAlive : Bool
  closed : Bool
  firstErr : Option String
deriving DecidableEq, Repr

/-- The state right after `Send` transmitted the pipeline built from `specs`
on a live connection: the server's response stream is `pipelineOutcomes specs`,
nothing consumed yet, token not canceled. -/
def sendBatch (specs : List StmtSpec) : BatchState :=
  ⟨pipelineOutcomes specs, 0, false, true, false, none⟩

/-- Canceling the governing token (between any two operations). -/
def cancelToken (s : BatchState) : BatchState := { s with canceled := true }

/-- Modelled from the spec: retrieving the next statement's result
(`ExecResults`, or `QueryResults` followed by draining its rows). A
cancellation observed after `Send` is fatal: the accessor returns the
cancellation error and the connection is marked not alive. Otherwise the
accessor consumes the next delivered response in order: a success yields its
row count; a server error is attributed to this statement's accessor and
recorded (first one wins) for `Close` to surface; a skipped statement is
reported as skipped; past the end there is no result. -/
def nextResult (s : BatchState) : BatchState × Except BatchError Nat :=
  if s.canceled then
    ({ s with connAlive := false }, .error BatchError.canceled)
  else
    match s.outcomes.get? s.cursor with
    | some (.success n) => ({ s with cursor := s.cursor + 1 }, .ok n)
    | some (.serverErr c) =>
        ({ s with cursor := s.cursor + 1,
                  firstErr := match s.firstErr with
                              | none => some c
                              | some e => some e },
         .error (BatchError.server c))
    | some .skipped =>
        ({ s with cursor := s.cursor + 1 }, .error BatchError.skippedStmt)
    | none => (s, .error BatchError.noResult)

/-- The first server error among a list of delivered responses. -/
def remainingFirstErr : List StmtResult → Option String
  | [] => none
  | .serverErr c :: _ => some c
  | _ :: rest => remainingFirstErr rest

/-- Modelled from the spec: `Close` is idempotent; with the token canceled it
returns the cancellation error and the connection is dead; otherwise it drains
every remaining delivered response (advancing the cursor to the end of the
stream) and surfaces the first server error encountered, whether already
consumed by an accessor or found while draining. Per the repository's test
`TestConnBeginBatchQueryError`, a `Close` that surfaces a server error leaves
the connection not alive. -/
def closeBatch (s : BatchState) : BatchState × Option BatchError :=
  if s.closed then (s, none)
  else if s.canceled then
    ({ s with closed := true, connAlive := false }, some BatchError.canceled)
  else
    match
      (match s.firstErr with
       | some c => some c
       | none => remainingFirstErr (s.outcomes.drop s.cursor)) with
    | some c =>
        ({ s with closed := true, cursor := s.outcomes.length,
                  connAlive := false, firstErr := some c },
         some (BatchError.server c))
    | none =>
        ({ s with closed := true, cursor := s.outcomes.length }, none)

/-- The connection's liveness check `IsAlive`. -/
def isAlive (s : BatchState) : Bool := s.connAlive

/-- The operations a caller can perform on a sent batch (and its connection)
after `Send`: retrieve the next result, close the batch, cancel the token. -/
inductive BatchOp where
  | access
  | close
  | cancel
deriving DecidableEq, Repr

/-- Apply one operation to the batch state (discarding the returned value). -/
def applyOp (s : BatchState) : BatchOp → BatchState
  | .access => (nextResult s).1
  | .close => (closeBatch s).1
  | .cancel => cancelToken s

/-- Run a sequence of operations. -/
def runOps : BatchState → List BatchOp → BatchState
  | s, [] => s
  | s, op :: ops => runOps (applyOp s op) ops

/-- Retrieve `k` results in a row, keeping only the state. -/
def iterAccess : BatchState → Nat → BatchState
  | s, 0 => s
  | s, k + 1 => iterAccess (nextResult s).1 k

/-!
## Helper lemmas: decimal parsing and formatting
-/

theorem foldl_digits_le (bs : List Nat) :
    ∀ a : Nat, a ≤ bs.foldl (fun x b => x * 10 + (b - 48)) a := by
  induction bs with
  | nil => intro a; exact le_refl a
  | cons b bs ih =>
      intro a
      have h1 : a ≤ a * 10 + (b - 48) := by omega
      exact le_trans h1 (ih (a * 10 + (b - 48)))

theorem parseLoop_ok (bs : List Nat) :
    ∀ a : Nat, bs.all isDigit = true →
      bs.foldl (fun x b => x * 10 + (b - 48)) a < 2 ^ 32 →
      parseLoop a bs = some (bs.foldl (fun x b => x * 10 + (b - 48)) a) := by
  induction bs with
  | nil => intro a _ _; rfl
  | cons b bs ih =>
      intro a hall hlt
      rw [List.all_cons, Bool.and_eq_true] at hall
      rw [List.foldl_cons] at hlt
      have hacc : a * 10 + (b - 48) < 2 ^ 32 :=
        lt_of_le_of_lt (foldl_digits_le bs (a * 10 + (b - 48))) hlt
      simp only [parseLoop, hall.1, if_true, hacc, List.foldl_cons]
      exact ih (a * 10 + (b - 48)) hall.2 hlt

theorem parseLoop_nodigit (bs : List Nat) :
    ∀ a : Nat, bs.all isDigit = false → parseLoop a bs = none := by
  induction bs with
  | nil => intro a h; simp [List.all_nil] at h
  | cons b bs ih =>
      intro a hall
      rw [List.all_cons, Bool.and_eq_false_iff] at hall
      cases hall with
      | inl hb => simp only [parseLoop, hb, Bool.false_eq_true, if_false]
      | inr hbs =>
          simp only [parseLoop]
          by_cases hb : isDigit b = true
          · simp only [hb, if_true]
            by_cases hlt : a * 10 + (b - 48) < 2 ^ 32
            · simp only [hlt, if_true]; exact ih _ hbs
            · simp only [hlt, if_false]
          · simp only [Bool.not_eq_true] at hb
            simp only [hb, Bool.false_eq_true, if_false]

theorem parseLoop_overflow (bs : List Nat) :
    ∀ a : Nat, a < 2 ^ 32 → bs.all isDigit = true →
      2 ^ 32 ≤ bs.foldl (fun x b => x * 10 + (b - 48)) a →
      parseLoop a bs = none := by
  induction bs with
  | nil =>
      intro a ha _ hge
      rw [show ([] : List Nat).foldl (fun x b => x * 10 + (b - 48)) a = a from rfl] at hge
      omega
  | cons b bs ih =>
      intro a ha hall hge
      rw [List.all_cons, Bool.and_eq_true] at hall
      rw [List.foldl_cons] at hge
      simp only [parseLoop, hall.1, if_true]
      by_cases hlt : a * 10 + (b - 48) < 2 ^ 32
      · simp only [hlt, if_true]; exact ih _ hlt hall.2 hge
      · simp only [hlt, if_false]

theorem parseUint32_pos (bs : List Nat) (hne : bs.isEmpty = false)
    (hall : bs.all isDigit = true) (hlt : digitsVal bs < 2 ^ 32) :
    parseUint32 bs = some (digitsVal bs) := by
  unfold parseUint32
  rw [hne]
  exact parseLoop_ok bs 0 hall hlt

theorem parseUint32_isSome_iff (bs : List Nat) :
    (parseUint32 bs).isSome = true ↔
      (bs.isEmpty = false ∧ bs.all isDigit = true ∧ digitsVal bs < 2 ^ 32) := by
  constructor
  · intro h
    unfold parseUint32 at h
    by_cases he : bs.isEmpty
    · rw [he] at h; simp at h
    · rw [Bool.not_eq_true] at he
      rw [he] at h
      simp only [Bool.false_eq_true, if_false] at h
      refine ⟨he, ?_, ?_⟩
      · by_cases hall : bs.all isDigit = true
        · exact hall
        · rw [Bool.not_eq_true] at hall
          rw [parseLoop_nodigit bs 0 hall] at h
          simp at h
      · by_cases hall : bs.all isDigit = true
        · by_cases hlt : digitsVal bs < 2 ^ 32
          · exact hlt
          · have := parseLoop_overflow bs 0 (by norm_num) hall (by
              unfold digitsVal at hlt; omega)
            rw [this] at h
            simp at h
        · rw [Bool.not_eq_true] at hall
          rw [parseLoop_nodigit bs 0 hall] at h
          simp at h
  · rintro ⟨hne, hall, hlt⟩
    rw [parseUint32_pos bs hne hall hlt]
    rfl

theorem foldr_mul_add_eq_ofDigits (l : List Nat) :
    l.foldr (fun d a => a * 10 + d) 0 = Nat.ofDigits 10 l := by
  induction l with
  | nil => simp [Nat.ofDigits]
  | cons d l ih =>
      rw [List.foldr_cons, ih, Nat.ofDigits_cons]
      omega

theorem digitsVal_decimalBytes (v : Nat) : digitsVal (decimalBytes v) = v := by
  by_cases hv : v = 0
  · subst hv; rfl
  · unfold decimalBytes digitsVal
    rw [if_neg hv, List.foldl_map]
    have hstep : (fun (a d : Nat) => a * 10 + (d + 48 - 48)) =
        (fun (a d : Nat) => a * 10 + d) := by
      funext a d; omega
    rw [hstep, List.foldl_reverse]
    have : (Nat.digits 10 v).foldr (fun d a => a * 10 + d) 0 = v := by
      rw [foldr_mul_add_eq_ofDigits, Nat.ofDigits_digits]
    simpa using this

theorem decimalBytes_all_digits (v : Nat) :
    (decimalBytes v).all isDigit = true := by
  by_cases hv : v = 0
  · subst hv; rfl
  · unfold decimalBytes
    rw [if_neg hv, List.all_eq_true]
    intro b hb
    rw [List.mem_map] at hb
    obtain ⟨d, hd, rfl⟩ := hb
    rw [List.mem_reverse] at hd
    have hlt : d < 10 := Nat.digits_lt_base (by norm_num) hd
    unfold isDigit
    rw [Bool.and_eq_true, decide_eq_true_iff, decide_eq_true_iff]
    omega

theorem decimalBytes_isEmpty_false (v : Nat) :
    (decimalBytes v).isEmpty = false := by
  by_cases hv : v = 0
  · subst hv; rfl
  · unfold decimalBytes
    rw [if_neg hv]
    have hne : Nat.digits 10 v ≠ [] := Nat.digits_ne_nil_iff_ne_zero.mpr hv
    rw [List.isEmpty_eq_false]
    simp only [ne_eq, List.map_eq_nil_iff, List.reverse_eq_nil_iff]
    exact hne

theorem beUint32_beBytes4 (v : Nat) (h : v < 2 ^ 32) :
    beUint32 (beBytes4 v) = v := by
  unfold beUint32 beBytes4
  simp only []
  omega

/-!
## Helper lemmas: batch state machine
-/

theorem applyOp_dead (s : BatchState) (op : BatchOp) (h : s.connAlive = false) :
    (applyOp s op).connAlive = false := by
  cases op with
  | access =>
      simp only [applyOp, nextResult]
      split
      · exact rfl
      · split <;> simp [h]
  | close =>
      simp only [applyOp, closeBatch]
      split
      · exact h
      · split
        · exact rfl
        · split <;> simp [h]
  | cancel => exact h

theorem runOps_dead (ops : List BatchOp) :
    ∀ s : BatchState, s.connAlive = false → (runOps s ops).connAlive = false := by
  induction ops with
  | nil => intro s h; exact h
  | cons op ops ih =>
      intro s h
      exact ih (applyOp s op) (applyOp_dead s op h)

theorem iterAccess_successes (m : Nat) :
    ∀ s : BatchState, s.canceled = false →
      (∀ i, i < m → ∃ n, s.outcomes.get? (s.cursor + i) = some (StmtResult.success n)) →
      iterAccess s m = { s with cursor := s.cursor + m } := by
  induction m with
  | zero => intro s _ _; simp [iterAccess]
  | succ m ih =>
      intro s hc hsucc
      obtain ⟨n, hn⟩ := hsucc 0 (Nat.succ_pos m)
      rw [Nat.add_zero] at hn
      have hstep : (nextResult s).1 = { s with cursor := s.cursor + 1 } := by
        simp only [nextResult, hc, Bool.false_eq_true, if_false, hn]
      show iterAccess (nextResult s).1 m = _
      rw [hstep]
      rw [ih { s with cursor := s.cursor + 1 } hc (by
        intro i hi
        obtain ⟨k, hk⟩ := hsucc (i + 1) (by omega)
        exact ⟨k, by simpa [Nat.add_assoc, Nat.add_comm 1 i] using hk⟩)]
      simp [Nat.add_assoc, Nat.add_comm 1 m]

theorem pipelineOutcomes_run (ns : List Nat) (c : String) (post : List StmtSpec) :
    pipelineOutcomes (ns.map StmtSpec.succeeds ++ StmtSpec.fails c :: post) =
      ns.map StmtResult.success ++
        StmtResult.serverErr c :: post.map (fun _ => StmtResult.skipped) := by
  induction ns with
  | nil => rfl
  | cons n ns ih =>
      simp only [List.map_cons, List.cons_append, pipelineOutcomes, List.append_eq]
      rw [ih]

/-!
## Claim theorems
-/

/-- C2 (counterexample): `AssignTo` of an `Undefined` pguint32 into a
`**uint32` destination returns a nil error and reports success (it sets the
pointer to nil, exactly as for `Null`), contradicting the claim that
converting an `Undefined` value to a native value always fails for every
supported destination type. -/
theorem assignTo_undefined_ppuint32_cex :
    AssignTo ⟨0, Status.Undefined⟩ (GoDest.ppuint32 (some 7)) =
      (GoDest.ppuint32 none, none) := rfl

/-- C2 (amended): `AssignTo` of an `Undefined` pguint32 into a `*uint32`
destination fails with a non-nil error and leaves the destination unchanged,
but into a `**uint32` destination it succeeds with a nil error, setting the
pointer to nil just as for `Null`. -/
theorem assignTo_undefined_behavior (n cur : Nat) (o : Option Nat) :
    (AssignTo ⟨n, Status.Undefined⟩ (GoDest.puint32 cur)).2 =
        some (GoError.cannotAssign ⟨n, Status.Undefined⟩ "*uint32")
    ∧ (AssignTo ⟨n, Status.Undefined⟩ (GoDest.puint32 cur)).1 = GoDest.puint32 cur
    ∧ AssignTo ⟨n, Status.Undefined⟩ (GoDest.ppuint32 o) =
        (GoDest.ppuint32 none, none) :=
  ⟨rfl, rfl, rfl⟩

/-- C9: `AssignTo` on any destination whose type is neither `*uint32` nor
`**uint32` falls through the type switch and returns a nil error with the
destination untouched, for every source value: the unsupported destination is
silently accepted, never reported as a conversion error. -/
theorem assignTo_unsupported_silent (src : pguint32) (ty : String) (cur : Nat) :
    AssignTo src (GoDest.other ty cur) = (GoDest.other ty cur, none) := rfl

/-- C5 (counterexample): `ConvertFrom` rejects an `int64` source, but the
error message interpolates the offending value with `%v` ("cannot convert 42
to pguint32"): it contains the value's rendering and does not contain the
source type name "int64", contradicting the claim that the message names the
offending source type. -/
theorem convertFrom_error_shows_value_cex :
    (ConvertFrom ⟨0, Status.Undefined⟩ (GoValue.gint64 42)).2 =
        some (GoError.cannotConvert "42")
    ∧ typeName (GoValue.gint64 42) = "int64"
    ∧ strHasSub (errMessage (GoError.cannotConvert "42")) "int64" = false
    ∧ strHasSub (errMessage (GoError.cannotConvert "42"))
        (goShow (GoValue.gint64 42)) = true := by
  refine ⟨rfl, rfl, ?_, ?_⟩ <;> decide

/-- C5 (amended): `ConvertFrom` succeeds exactly when the source's dynamic
type is `uint32` (storing `Present` of that integer); any other source type
(including 64-bit integers) returns a conversion error whose message shows
the `%v` rendering of the offending value (not its type name), with the
destination unchanged - no implicit widening, narrowing or truncation. -/
theorem convertFrom_uint32_only (dst : pguint32) (v : GoValue) :
    (∀ n, ConvertFrom dst (GoValue.guint32 n) = (⟨n, Status.Present⟩, none))
    ∧ (GoValue.isUint32 v = false →
        ConvertFrom dst v = (dst, some (GoError.cannotConvert (goShow v)))) := by
  constructor
  · intro n; rfl
  · intro h
    cases v with
    | guint32 n => simp [GoValue.isUint32] at h
    | guint64 n => rfl
    | gint32 n => rfl
    | gint64 n => rfl
    | gint n => rfl
    | gstring s => rfl
    | gbool b => rfl

/-- C5 witness: `ConvertFrom` at the concrete inputs `uint32(7)` (accepted)
and `int64(42)` (rejected with the value-shaped message). -/
theorem convertFrom_uint32_only_witness :
    ConvertFrom ⟨0, Status.Undefined⟩ (GoValue.guint32 7) =
        (⟨7, Status.Present⟩, none)
    ∧ ConvertFrom ⟨0, Status.Undefined⟩ (GoValue.gint64 42) =
        (⟨0, Status.Undefined⟩, some (GoError.cannotConvert "42")) := by
  have h := convertFrom_uint32_only ⟨0, Status.Undefined⟩ (GoValue.gint64 42)
  exact ⟨h.1 7, by rw [h.2 rfl]; rfl⟩

/-- C6: for both `EncodeText` and `EncodeBinary`, bytes reach the wire exactly
when the status is `Present`: `Null` signals null (`true`) with no bytes and
no error, `Undefined` returns `errUndefined` with no bytes, and `Present`
writes a non-empty payload (the decimal rendering, resp. exactly 4 binary
bytes) with no error. -/
theorem encode_bytes_iff_present (v : pguint32) :
    (v.Status = Status.Null →
        EncodeText v = ([], true, none) ∧ EncodeBinary v = ([], true, none))
    ∧ (v.Status = Status.Undefined →
        EncodeText v = ([], false, some GoError.errUndefined)
        ∧ EncodeBinary v = ([], false, some GoError.errUndefined))
    ∧ (v.Status = Status.Present →
        (EncodeText v).1.isEmpty = false
        ∧ (EncodeText v).2 = (false, none)
        ∧ (EncodeBinary v).1.length = 4
        ∧ (EncodeBinary v).2 = (false, none))
    ∧ ((EncodeText v).1.isEmpty = false ↔ v.Status = Status.Present)
    ∧ ((EncodeBinary v).1.isEmpty = false ↔ v.Status = Status.Present) := by
  obtain ⟨u, st⟩ := v
  cases st <;>
    simp [EncodeText, EncodeBinary, beBytes4, decimalBytes_isEmpty_false]

/-- C6 witness: the three statuses at concrete values. -/
theorem encode_bytes_iff_present_witness :
    EncodeText ⟨9, Status.Null⟩ = ([], true, none)
    ∧ EncodeBinary ⟨9, Status.Undefined⟩ = ([], false, some GoError.errUndefined)
    ∧ (EncodeText ⟨9, Status.Present⟩).1.isEmpty = false := by
  refine ⟨((encode_bytes_iff_present ⟨9, Status.Null⟩).1 rfl).1,
    ((encode_bytes_iff_present ⟨9, Status.Undefined⟩).2.1 rfl).2,
    ((encode_bytes_iff_present ⟨9, Status.Present⟩).2.2.1 rfl).1⟩

/-- C7: `DecodeBinary` maps a nil input to `Null` (with the payload zeroed);
a non-nil input succeeds exactly when its length is 4, yielding `Present` of
the big-endian unsigned interpretation of the 4 bytes, and any other length
returns the length-mismatch error with the destination unchanged. -/
theorem decodeBinary_spec_claim (dst : pguint32) (bs : List Nat) :
    DecodeBinary dst none = (⟨0, Status.Null⟩, none)
    ∧ ((DecodeBinary dst (some bs)).2 = none ↔ bs.length = 4)
    ∧ (∀ b0 b1 b2 b3 : Nat,
        DecodeBinary dst (some [b0, b1, b2, b3]) =
          (⟨((b0 * 256 + b1) * 256 + b2) * 256 + b3, Status.Present⟩, none))
    ∧ (bs.length ≠ 4 →
        DecodeBinary dst (some bs) = (dst, some (GoError.invalidLength bs.length))) := by
  refine ⟨rfl, ?_, ?_, ?_⟩
  · by_cases h : bs.length = 4 <;> simp [DecodeBinary, h]
  · intro b0 b1 b2 b3; rfl
  · intro h; simp [DecodeBinary, h]

/-- C7 witness: nil input, a 4-byte input, and a 3-byte input. -/
theorem decodeBinary_spec_claim_witness :
    DecodeBinary ⟨5, Status.Present⟩ none = (⟨0, Status.Null⟩, none)
    ∧ DecodeBinary ⟨5, Status.Present⟩ (some [18, 52, 86, 120]) =
        (⟨305419896, Status.Present⟩, none)
    ∧ DecodeBinary ⟨5, Status.Present⟩ (some [1, 2, 3]) =
        (⟨5, Status.Present⟩, some (GoError.invalidLength 3)) := by
  refine ⟨(decodeBinary_spec_claim ⟨5, Status.Present⟩ []).1, ?_, ?_⟩
  · have h := (decodeBinary_spec_claim ⟨5, Status.Present⟩ []).2.2.1 18 52 86 120
    rw [h]
  · exact (decodeBinary_spec_claim ⟨5, Status.Present⟩ [1, 2, 3]).2.2.2 (by decide)

/-- C8: `DecodeText` maps a nil input to `Null` (payload zeroed); a non-nil
input succeeds exactly when the bytes are one or more ASCII base-10 digits
(leading zeros permitted, no sign) whose value fits in 32 bits, yielding
`Present` of that value; otherwise it returns the parse error with the
destination unchanged. -/
theorem decodeText_spec_claim (dst : pguint32) (bs : List Nat) :
    DecodeText dst none = (⟨0, Status.Null⟩, none)
    ∧ ((DecodeText dst (some bs)).2 = none ↔
        (bs.isEmpty = false ∧ bs.all isDigit = true ∧ digitsVal bs < 2 ^ 32))
    ∧ (bs.isEmpty = false → bs.all isDigit = true → digitsVal bs < 2 ^ 32 →
        DecodeText dst (some bs) = (⟨digitsVal bs, Status.Present⟩, none))
    ∧ ((DecodeText dst (some bs)).2 = none ∨
        DecodeText dst (some bs) = (dst, some (GoError.numError bs))) := by
  refine ⟨rfl, ?_, ?_, ?_⟩
  · rw [← parseUint32_isSome_iff bs]
    simp only [DecodeText]
    cases h : parseUint32 bs <;> simp [h]
  · intro hne hall hlt
    simp only [DecodeText, parseUint32_pos bs hne hall hlt]
  · simp only [DecodeText]
    cases h : parseUint32 bs <;> simp [h]

/-- C8 witness: nil, "007" (leading zeros), "A" (non-numeric) and
"4294967296" (overflowing) inputs at a concrete destination. -/
theorem decodeText_spec_claim_witness :
    DecodeText ⟨5, Status.Present⟩ none = (⟨0, Status.Null⟩, none)
    ∧ DecodeText ⟨5, Status.Present⟩ (some [48, 48, 55]) =
        (⟨7, Status.Present⟩, none)
    ∧ (DecodeText ⟨5, Status.Present⟩ (some [65])).2 ≠ none
    ∧ (DecodeText ⟨5, Status.Present⟩
        (some [52, 50, 57, 52, 57, 54, 55, 50, 57, 54])).2 ≠ none := by
  refine ⟨(decodeText_spec_claim ⟨5, Status.Present⟩ []).1, ?_, ?_, ?_⟩
  · have h := (decodeText_spec_claim ⟨5, Status.Present⟩ [48, 48, 55]).2.2.1
      (by decide) (by decide) (by decide)
    rw [h]; rfl
  · intro h
    have := ((decodeText_spec_claim ⟨5, Status.Present⟩ [65]).2.1.mp h).2.1
    simp [isDigit] at this
  · intro h
    have := ((decodeText_spec_claim ⟨5, Status.Present⟩
      [52, 50, 57, 52, 57, 54, 55, 50, 57, 54]).2.1.mp h).2.2
    revert this; decide

/-- C10: `DecodeText` and `DecodeBinary` are atomic on failure: whenever the
returned error is non-nil, the destination is exactly what it was before the
call (both methods return before assigning on every error path). -/
theorem decode_atomic_on_error (dst : pguint32) (src : Option (List Nat)) :
    ((DecodeText dst src).2.isSome = true → (DecodeText dst src).1 = dst)
    ∧ ((DecodeBinary dst src).2.isSome = true → (DecodeBinary dst src).1 = dst) := by
  constructor
  · cases src with
    | none => intro h; simp [DecodeText] at h
    | some bs =>
        simp only [DecodeText]
        cases h : parseUint32 bs <;> simp
  · cases src with
    | none => intro h; simp [DecodeBinary] at h
    | some bs =>
        simp only [DecodeBinary]
        by_cases h : bs.length = 4 <;> simp [h]

/-- C10 witness: a non-numeric text decode and a length-3 binary decode both
fail and leave the concrete destination `⟨5, Present⟩` untouched. -/
theorem decode_atomic_on_error_witness :
    (DecodeText ⟨5, Status.Present⟩ (some [65])).1 = ⟨5, Status.Present⟩
    ∧ (DecodeBinary ⟨5, Status.Present⟩ (some [1, 2, 3])).1 = ⟨5, Status.Present⟩ :=
  ⟨(decode_atomic_on_error ⟨5, Status.Present⟩ (some [65])).1 (by decide),
   (decode_atomic_on_error ⟨5, Status.Present⟩ (some [1, 2, 3])).2 (by decide)⟩

/-- C3: for every unsigned 32-bit integer v, decoding the bytes produced by
`EncodeBinary` of `Present v` via `DecodeBinary` yields `Present v` with no
error, and decoding the bytes produced by `EncodeText` of `Present v` via
`DecodeText` yields `Present v` with no error: both round trips are the
identity on `Present` values. -/
theorem pguint32_roundtrip (v : Nat) (h : v < 2 ^ 32) (dst : pguint32) :
    DecodeBinary dst (some (EncodeBinary ⟨v, Status.Present⟩).1) =
        (⟨v, Status.Present⟩, none)
    ∧ DecodeText dst (some (EncodeText ⟨v, Status.Present⟩).1) =
        (⟨v, Status.Present⟩, none) := by
  constructor
  · show DecodeBinary dst (some (beBytes4 v)) = _
    simp only [DecodeBinary, beBytes4, List.length_cons, List.length_nil]
    rw [if_neg (by omega)]
    rw [show beUint32 [v / 16777216 % 256, v / 65536 % 256, v / 256 % 256, v % 256]
          = beUint32 (beBytes4 v) from rfl,
        beUint32_beBytes4 v h]
  · show DecodeText dst (some (decimalBytes v)) = _
    simp only [DecodeText,
      parseUint32_pos (decimalBytes v) (decimalBytes_isEmpty_false v)
        (decimalBytes_all_digits v) (by rw [digitsVal_decimalBytes]; exact h),
      digitsVal_decimalBytes]

/-- C3 witness: the round trips at v = 4294967295, the largest uint32. -/
theorem pguint32_roundtrip_witness :
    (4294967295 : Nat) < 2 ^ 32
    ∧ DecodeBinary ⟨0, Status.Undefined⟩
        (some (EncodeBinary ⟨4294967295, Status.Present⟩).1) =
        (⟨4294967295, Status.Present⟩, none)
    ∧ DecodeText ⟨0, Status.Undefined⟩
        (some (EncodeText ⟨4294967295, Status.Present⟩).1) =
        (⟨4294967295, Status.Present⟩, none) :=
  ⟨by norm_num,
   (pguint32_roundtrip 4294967295 (by norm_num) ⟨0, Status.Undefined⟩).1,
   (pguint32_roundtrip 4294967295 (by norm_num) ⟨0, Status.Undefined⟩).2⟩

/-- C1 (counterexample): in the scenario of `TestConnBeginBatchQueryError`
(statement 1 of 2 fails with server error code 22012, statement 2 is skipped),
the accessor for the failing statement does report the server error and
`Close` does drain and return it, but the connection's liveness check after
`Close` reports `false`, not `true` - per the test's own assertion
"conn should be dead, but was alive". The claim's conjunction is false at
this input. -/
theorem batch_stmt_error_close_liveness_cex :
    ¬ ((nextResult (sendBatch [StmtSpec.fails "22012", StmtSpec.succeeds 0])).2 =
          Except.error (BatchError.server "22012")
       ∧ (closeBatch (nextResult
            (sendBatch [StmtSpec.fails "22012", StmtSpec.succeeds 0])).1).2 =
          some (BatchError.server "22012")
       ∧ isAlive (closeBatch (nextResult
            (sendBatch [StmtSpec.fails "22012", StmtSpec.succeeds 0])).1).1 = true) := by
  rintro ⟨-, -, h⟩
  revert h
  decide

/-- C1 (amended): for a batch of N queued statements where statement k fails
with a server error (statements 1..k-1 succeeding), the accessor for
statement k reports that server error, `Close` drains the remaining
statements k+1..N (all delivered as skipped) and returns statement k's error,
and after `Close` the connection's liveness check reports `false` (per the
repository's test, a batch server error is fatal to the connection, unlike
what the spec's prose says). Here the batch is
`ns.map succeeds ++ fails c :: post`, so k = ns.length + 1, N = ns.length +
1 + post.length. -/
theorem batch_stmt_error_accessor_close_drain
    (ns : List Nat) (c : String) (post : List StmtSpec) :
    (nextResult (iterAccess
        (sendBatch (ns.map StmtSpec.succeeds ++ StmtSpec.fails c :: post))
        ns.length)).2 = Except.error (BatchError.server c)
    ∧ (closeBatch (nextResult (iterAccess
        (sendBatch (ns.map StmtSpec.succeeds ++ StmtSpec.fails c :: post))
        ns.length)).1).2 = some (BatchError.server c)
    ∧ (closeBatch (nextResult (iterAccess
        (sendBatch (ns.map StmtSpec.succeeds ++ StmtSpec.fails c :: post))
        ns.length)).1).1.cursor =
      (closeBatch (nextResult (iterAccess
        (sendBatch (ns.map StmtSpec.succeeds ++ StmtSpec.fails c :: post))
        ns.length)).1).1.outcomes.length
    ∧ (∀ j, ns.length < j →
        j < (closeBatch (nextResult (iterAccess
          (sendBatch (ns.map StmtSpec.succeeds ++ StmtSpec.fails c :: post))
          ns.length)).1).1.outcomes.length →
        (closeBatch (nextResult (iterAccess
          (sendBatch (ns.map StmtSpec.succeeds ++ StmtSpec.fails c :: post))
          ns.length)).1).1.outcomes.get? j = some StmtResult.skipped)
    ∧ isAlive (closeBatch (nextResult (iterAccess
        (sendBatch (ns.map StmtSpec.succeeds ++ StmtSpec.fails c :: post))
        ns.length)).1).1 = false := by
  have hpipe := pipelineOutcomes_run ns c post
  have hlenA : (ns.map StmtResult.success).length = ns.length := by
    rw [List.length_map]
  -- the first ns.length delivered responses are successes
  have hsucc : ∀ i, i < ns.length →
      ∃ n, (sendBatch (ns.map StmtSpec.succeeds ++ StmtSpec.fails c :: post)).outcomes.get?
        ((sendBatch (ns.map StmtSpec.succeeds ++ StmtSpec.fails c :: post)).cursor + i) =
        some (StmtResult.success n) := by
    intro i hi
    show ∃ n, (pipelineOutcomes _).get? (0 + i) = some (StmtResult.success n)
    rw [hpipe, Nat.zero_add, List.get?_append (by rw [hlenA]; exact hi),
      List.get?_map, List.get?_eq_get hi]
    exact ⟨ns.get ⟨i, hi⟩, rfl⟩
  -- retrieving those ns.length results just advances the cursor
  have hs1 : iterAccess
      (sendBatch (ns.map StmtSpec.succeeds ++ StmtSpec.fails c :: post)) ns.length =
      ⟨pipelineOutcomes (ns.map StmtSpec.succeeds ++ StmtSpec.fails c :: post),
        ns.length, false, true, false, none⟩ := by
    rw [iterAccess_successes ns.length _ rfl hsucc]
    simp [sendBatch]
  -- the next delivered response is the server error
  have hget : (pipelineOutcomes
      (ns.map StmtSpec.succeeds ++ StmtSpec.fails c :: post)).get? ns.length =
      some (StmtResult.serverErr c) := by
    rw [hpipe, List.get?_append_right (by rw [hlenA]), hlenA, Nat.sub_self]
    rfl
  -- the accessor for the failing statement
  have hnext : nextResult
      ⟨pipelineOutcomes (ns.map StmtSpec.succeeds ++ StmtSpec.fails c :: post),
        ns.length, false, true, false, none⟩ =
      (⟨pipelineOutcomes (ns.map StmtSpec.succeeds ++ StmtSpec.fails c :: post),
          ns.length + 1, false, true, false, some c⟩,
        Except.error (BatchError.server c)) := by
    simp only [nextResult, Bool.false_eq_true, if_false, hget]
  rw [hs1, hnext]
  refine ⟨rfl, rfl, rfl, ?_, rfl⟩
  intro j hj hjlen
  show (pipelineOutcomes _).get? j = some StmtResult.skipped
  have hjlen' : j < (pipelineOutcomes
      (ns.map StmtSpec.succeeds ++ StmtSpec.fails c :: post)).length := hjlen
  rw [hpipe] at hjlen' ⊢
  rw [List.get?_append_right (by rw [hlenA]; omega), hlenA]
  have hj1 : j - ns.length = (j - ns.length - 1) + 1 := by omega
  rw [hj1, List.get?_cons_succ, List.get?_map]
  have hlt : j - ns.length - 1 < post.length := by
    rw [List.length_append, hlenA, List.length_cons, List.length_map] at hjlen'
    omega
  rw [List.get?_eq_get hlt]
  rfl

/-- C1 witness: the test's concrete two-statement batch, with the failing
statement first (ns = [], k = 1, N = 2): the accessor reports the 22012
server error, `Close` returns it with the stream fully drained, the skipped
second statement is at index 1, and the connection is not alive. -/
theorem batch_stmt_error_accessor_close_drain_witness :
    (nextResult (iterAccess
        (sendBatch [StmtSpec.fails "22012", StmtSpec.succeeds 0]) 0)).2 =
      Except.error (BatchError.server "22012")
    ∧ (closeBatch (nextResult (iterAccess
        (sendBatch [StmtSpec.fails "22012", StmtSpec.succeeds 0]) 0)).1).2 =
      some (BatchError.server "22012")
    ∧ (closeBatch (nextResult (iterAccess
        (sendBatch [StmtSpec.fails "22012", StmtSpec.succeeds 0]) 0)).1).1.outcomes.get? 1 =
      some StmtResult.skipped
    ∧ isAlive (closeBatch (nextResult (iterAccess
        (sendBatch [StmtSpec.fails "22012", StmtSpec.succeeds 0]) 0)).1).1 = false := by
  have h := batch_stmt_error_accessor_close_drain [] "22012" [StmtSpec.succeeds 0]
  exact ⟨h.1, h.2.1, h.2.2.2.1 1 (by decide) (by decide), h.2.2.2.2⟩

/-- C4: if the batch's token is canceled after `Send` completed and before a
result is retrieved, the next result accessor returns the cancellation error,
and from that point on the connection's liveness check reports `false` under
every further sequence of operations on the batch (nothing ever revives the
connection). -/
theorem batch_cancel_after_send_fatal (specs : List StmtSpec) :
    (nextResult (cancelToken (sendBatch specs))).2 =
      Except.error BatchError.canceled
    ∧ isAlive (nextResult (cancelToken (sendBatch specs))).1 = false
    ∧ ∀ ops : List BatchOp,
        isAlive (runOps (nextResult (cancelToken (sendBatch specs))).1 ops) = false := by
  have hdead : (nextResult (cancelToken (sendBatch specs))).1.connAlive = false := rfl
  exact ⟨rfl, hdead, fun ops => runOps_dead ops _ hdead⟩

/-- C4 witness: the scenario of `TestConnBeginBatchContextCancelBeforeExecResults`
(two queued statements, token canceled right after `Send`): the first
accessor returns the cancellation error and the connection stays dead through
a further accessor call and a `Close`. -/
theorem batch_cancel_after_send_fatal_witness :
    (nextResult (cancelToken
        (sendBatch [StmtSpec.succeeds 1, StmtSpec.succeeds 0]))).2 =
      Except.error BatchError.canceled
    ∧ isAlive (runOps (nextResult (cancelToken
        (sendBatch [StmtSpec.succeeds 1, StmtSpec.succeeds 0]))).1
        [BatchOp.access, BatchOp.close]) = false := by
  have h := batch_cancel_after_send_fatal [StmtSpec.succeeds 1, StmtSpec.succeeds 0]
  exact ⟨h.1, h.2.2 [BatchOp.access, BatchOp.close]⟩

end PGX
